import Mathlib

/-!
Verification of the StereoPipeline sources against their specification.

The development shallowly embeds the two source files:

* `lrojitreg.cc` (the offset-estimation utility): the class
  `RunningStandardDeviation`, the accumulation loop of `determineShifts`,
  its failure handling, its row log, and `main`.
* `StereoSessionIsis.cc`: `remove_duplicates`, the tiered interest-point
  cache of `StereoSessionIsis::determine_image_alignment`, its RANSAC
  fallback, and the `pre_preprocessing_hook` / `pre_pointcloud_hook` stages.

C++ `double`/`float` values are modelled as exact rationals; file-system
state and the external collaborators (detector, descriptor, matcher, RANSAC,
disk images) are modelled as explicit environments.  The file is organized
as definitions first, then lemmas and the claim theorems.
-/

namespace StereoPipeline

/-- State of the streaming accumulator `class RunningStandardDeviation` from
`lrojitreg.cc`.  The `double` members are modelled as rationals.  The C++
default constructor initializes only `m_n`; the remaining members are never
read before being written, and are modelled as `0` in `init`. -/
structure RunningStandardDeviation where
  m_n : ℕ
  m_oldM : ℚ
  m_newM : ℚ
  m_oldS : ℚ
  m_newS : ℚ
deriving DecidableEq

namespace RunningStandardDeviation

/-- `RunningStandardDeviation() : m_n(0)`. -/
def init : RunningStandardDeviation := ⟨0, 0, 0, 0, 0⟩

/-- `Clear()` sets `m_n = 0` and leaves every other member untouched. -/
def Clear (s : RunningStandardDeviation) : RunningStandardDeviation :=
  { s with m_n := 0 }

/-- `Push(double x)`: increments `m_n`; on the first push sets
`m_oldM = m_newM = x` and `m_oldS = 0` (leaving `m_newS` stale, exactly as the
C++ does); otherwise performs the Welford update and copies the new values
back into the `old` fields. -/
def Push (s : RunningStandardDeviation) (x : ℚ) : RunningStandardDeviation :=
  let n := s.m_n + 1
  if n = 1 then
    { s with m_n := n, m_oldM := x, m_newM := x, m_oldS := 0 }
  else
    let newM := s.m_oldM + (x - s.m_oldM) / (n : ℚ)
    let newS := s.m_oldS + (x - s.m_oldM) * (x - newM)
    { m_n := n, m_oldM := newM, m_newM := newM, m_oldS := newS, m_newS := newS }

/-- `NumDataValues()`. -/
def NumDataValues (s : RunningStandardDeviation) : ℕ := s.m_n

/-- `Mean()` returns `m_newM` when `m_n > 0`, else `0`. -/
def Mean (s : RunningStandardDeviation) : ℚ :=
  if 0 < s.m_n then s.m_newM else 0

/-- `Variance()` returns `m_newS / (m_n - 1)` when `m_n > 1`, else `0`. -/
def Variance (s : RunningStandardDeviation) : ℚ :=
  if 1 < s.m_n then s.m_newS / ((s.m_n : ℚ) - 1) else 0

/-- `StandardDeviation()` is `sqrt(Variance())`. -/
noncomputable def StandardDeviation (s : RunningStandardDeviation) : ℝ :=
  Real.sqrt ((Variance s : ℚ) : ℝ)

/-- Push a whole sequence of samples, in order. -/
def pushList (s : RunningStandardDeviation) (xs : List ℚ) : RunningStandardDeviation :=
  xs.foldl Push s

/-- Sum of squares of a sample list. -/
def sumSq (l : List ℚ) : ℚ := (l.map fun x => x * x).sum

end RunningStandardDeviation

/-! ### The `determineShifts` accumulation loop of `lrojitreg.cc`

The disparity map produced by the (external) correlator is modelled as a
list of rows; each cell is `some (dX, dY)` when `is_valid` holds and `none`
otherwise. -/

/-- A disparity field: rows of optional `(dX, dY)` vectors. -/
abbrev DGrid := List (List (Option (ℚ × ℚ)))

/-- Per-row mean of the valid `dX` (sample) components: `colSum / numValidInRow`,
`0` when the row has no valid cell (`colOffsets[row]` in the source). -/
def rowMeanSamp (r : List (Option (ℚ × ℚ))) : ℚ :=
  let valid := r.filterMap id
  if valid.length = 0 then 0 else (valid.map Prod.fst).sum / (valid.length : ℚ)

/-- Per-row mean of the valid `dY` (line) components: `rowSum / numValidInRow`,
`0` when the row has no valid cell (`rowOffsets[row]` in the source). -/
def rowMeanLine (r : List (Option (ℚ × ℚ))) : ℚ :=
  let valid := r.filterMap id
  if valid.length = 0 then 0 else (valid.map Prod.snd).sum / (valid.length : ℚ)

/-- The running state of the accumulation loop over the disparity rows in
`determineShifts`. -/
structure ShiftAccum where
  stdCalcX : RunningStandardDeviation
  stdCalcY : RunningStandardDeviation
  numValidRows : ℕ
  totalNumValidPixels : ℕ
  rowOffsets : List ℚ
  colOffsets : List ℚ
deriving DecidableEq

/-- Loop state before the first row. -/
def initShiftAccum : ShiftAccum :=
  ⟨RunningStandardDeviation.init, RunningStandardDeviation.init, 0, 0, [], []⟩

/-- One iteration of the outer row loop of `determineShifts`: every valid
`dX` is pushed into `stdCalcX` and every valid `dY` into `stdCalcY` (in
column order); the per-row means are recorded, and `numValidRows` /
`totalNumValidPixels` are incremented only when the row has a valid cell. -/
def processRow (acc : ShiftAccum) (r : List (Option (ℚ × ℚ))) : ShiftAccum :=
  let valid := r.filterMap id
  let n := valid.length
  { stdCalcX := RunningStandardDeviation.pushList acc.stdCalcX (valid.map Prod.fst)
    stdCalcY := RunningStandardDeviation.pushList acc.stdCalcY (valid.map Prod.snd)
    numValidRows := acc.numValidRows + (if n = 0 then 0 else 1)
    totalNumValidPixels := acc.totalNumValidPixels + (if n = 0 then 0 else n)
    rowOffsets := acc.rowOffsets ++ [rowMeanLine r]
    colOffsets := acc.colOffsets ++ [rowMeanSamp r] }

/-- The whole accumulation loop over the disparity map. -/
def accumulateShifts (g : DGrid) : ShiftAccum := g.foldl processRow initShiftAccum

/-- All valid `(dX, dY)` samples of the disparity field, in the row-major
order in which the loop pushes them. -/
def validSamples (g : DGrid) : List (ℚ × ℚ) := (g.map fun r => r.filterMap id).flatten

/-- Outcome alternatives of `determineShifts` (`return false` paths versus
the successful assignment of `dX`/`dY`). -/
inductive ShiftResult where
  | inputMissing : ShiftResult
  | logFileUnwritable : ShiftResult
  | noValidMatches : ShiftResult
  | success : ℚ → ℚ → ShiftResult
deriving DecidableEq

/-- Observable outcome of one `determineShifts` call: its result, whether a
failure diagnostic was printed, whether the row log's summary block took the
`NULL` branch or the statistics branch, and the per-row log lines
`(rowOffsets[row], colOffsets[row])` (present only when a row log is
written). -/
structure ShiftOutcome where
  result : ShiftResult
  diagnosticPrinted : Bool
  nullSummaryWritten : Bool
  statsSummaryWritten : Bool
  rowLines : Option (List (ℚ × ℚ))
deriving DecidableEq

/-- Environment of one `determineShifts` call: existence of the two input
files, whether a row log was requested (`rowLogFilePath` nonempty), whether
opening it fails, and the disparity map the correlator produces. -/
structure ShiftEnv where
  leftExists : Bool
  rightExists : Bool
  writeLogFile : Bool
  logOpenFails : Bool
  disparity : DGrid
deriving DecidableEq

/-- `determineShifts` of `lrojitreg.cc`: checks the input files, opens the
row log when requested, accumulates the disparity shifts, writes the log
(including the summary block, whose `NULL` branch runs when
`numValidRows == 0`), and only *afterwards* checks `numValidRows == 0`
(the `NoValidMatches` failure); on success assigns
`dX = stdCalcX.Mean()` and `dY = stdCalcY.Mean()`. -/
def determineShifts (env : ShiftEnv) : ShiftOutcome :=
  if !env.leftExists then
    ⟨ShiftResult.inputMissing, true, false, false, none⟩
  else if !env.rightExists then
    ⟨ShiftResult.inputMissing, true, false, false, none⟩
  else if env.writeLogFile && env.logOpenFails then
    ⟨ShiftResult.logFileUnwritable, true, false, false, none⟩
  else
    let acc := accumulateShifts env.disparity
    let rowLines := if env.writeLogFile then some (acc.rowOffsets.zip acc.colOffsets) else none
    if acc.numValidRows = 0 then
      ⟨ShiftResult.noValidMatches, true, env.writeLogFile, false, rowLines⟩
    else
      ⟨ShiftResult.success (RunningStandardDeviation.Mean acc.stdCalcX)
          (RunningStandardDeviation.Mean acc.stdCalcY),
        false, false, env.writeLogFile, rowLines⟩

/-- Observable outcome of `main`: the process exit status, the offsets
printed (only on success), and whether a diagnostic was printed. -/
structure MainOutcome where
  exitCode : ℕ
  printedOffsets : Option (ℚ × ℚ)
  diagnosticPrinted : Bool
deriving DecidableEq

/-- `main` of `lrojitreg.cc`: calls `determineShifts`; on success prints the
two offsets; on failure prints nothing further; in both cases it falls
through to `return 0`. -/
def mainRun (env : ShiftEnv) : MainOutcome :=
  let o := determineShifts env
  match o.result with
  | ShiftResult.success dX dY => ⟨0, some (dX, dY), o.diagnosticPrinted⟩
  | _ => ⟨0, none, o.diagnosticPrinted⟩

/-! ### `remove_duplicates` of `StereoSessionIsis.cc` -/

/-- `Vector3` of the interest-point coordinate lists. -/
abbrev Vec3 := ℚ × ℚ × ℚ

/-- The inner loop of `remove_duplicates`: index `i` is a bad entry when some
index `j ≠ i` has `ip1[i] == ip1[j]` or `ip2[i] == ip2[j]`. -/
def bad_entry {α β : Type} [DecidableEq α] [DecidableEq β] [Inhabited α] [Inhabited β]
    (ip1 : List α) (ip2 : List β) (i : ℕ) : Bool :=
  (List.range ip1.length).any fun j =>
    decide (i ≠ j) &&
      (decide (ip1.getD i default = ip1.getD j default) ||
       decide (ip2.getD i default = ip2.getD j default))

/-- Indices whose entries survive `remove_duplicates`, in order. -/
def keepIndices {α β : Type} [DecidableEq α] [DecidableEq β] [Inhabited α] [Inhabited β]
    (ip1 : List α) (ip2 : List β) : List ℕ :=
  (List.range ip1.length).filter fun i => !bad_entry ip1 ip2 i

/-- `remove_duplicates(ip1, ip2)`: keeps `(ip1[i], ip2[i])` exactly for the
non-bad indices `i`, in increasing index order. -/
def remove_duplicates {α β : Type} [DecidableEq α] [DecidableEq β] [Inhabited α] [Inhabited β]
    (ip1 : List α) (ip2 : List β) : List α × List β :=
  ((keepIndices ip1 ip2).map fun i => ip1.getD i default,
   (keepIndices ip1 ip2).map fun i => ip2.getD i default)

/-! ### `StereoSessionIsis::determine_image_alignment` -/

/-- A 3×3 matrix of rationals (`vw::math::Matrix<double>` sized 3×3). -/
structure Mat3 where
  a11 : ℚ
  a12 : ℚ
  a13 : ℚ
  a21 : ℚ
  a22 : ℚ
  a23 : ℚ
  a31 : ℚ
  a32 : ℚ
  a33 : ℚ
deriving DecidableEq

/-- `set_identity()` on a 3×3 matrix. -/
def Mat3.identity : Mat3 := ⟨1, 0, 0, 0, 1, 0, 0, 0, 1⟩

/-- Side effects of the cached interest-point pipeline, in execution order. -/
inductive AlignEvent where
  | readMatchFile : AlignEvent
  | readVwipFiles : AlignEvent
  | detectPoints : AlignEvent
  | generateDescriptors : AlignEvent
  | writeVwipFiles : AlignEvent
  | runMatcher : AlignEvent
  | writeMatchFile : AlignEvent
deriving DecidableEq

/-- Environment of one `determine_image_alignment` call: which cache
artifacts exist on disk, their contents, and the external collaborators.
Interest points are collapsed to their `Vector3` coordinates (the source
converts via `iplist_to_vectorlist` before the duplicate cull and RANSAC).
`matcherOut` models `InterestPointMatcher`, and `ransacOut` models the
`RandomSampleConsensus` call, `none` standing for the exception it throws
on a degenerate fit. -/
structure AlignEnv where
  matchExists : Bool
  vwip1Exists : Bool
  vwip2Exists : Bool
  matchContent : List Vec3 × List Vec3
  vwipContent : List Vec3 × List Vec3
  detected : List Vec3 × List Vec3
  matcherOut : List Vec3 × List Vec3 → List Vec3 × List Vec3
  ransacOut : List Vec3 × List Vec3 → Option Mat3

/-- Result of `determine_image_alignment`: the returned matrix, the cache
side effects that occurred, and whether the RANSAC-failure warning was
printed. -/
structure AlignResult where
  T : Mat3
  events : List AlignEvent
  warned : Bool
deriving DecidableEq

/-- The matched interest points obtained by the three cache tiers:
the `.match` file when it exists; otherwise the matcher on the two `.vwip`
files when both exist; otherwise the matcher on freshly detected and
described points. -/
def tierMatches (env : AlignEnv) : List Vec3 × List Vec3 :=
  if env.matchExists then env.matchContent
  else if env.vwip1Exists && env.vwip2Exists then env.matcherOut env.vwipContent
  else env.matcherOut env.detected

/-- The cache side effects of the three tiers (tier 3 writes the `.vwip`
files and immediately reads them back, as the source does). -/
def tierEvents (env : AlignEnv) : List AlignEvent :=
  if env.matchExists then [AlignEvent.readMatchFile]
  else if env.vwip1Exists && env.vwip2Exists then
    [AlignEvent.readVwipFiles, AlignEvent.runMatcher, AlignEvent.writeMatchFile]
  else
    [AlignEvent.detectPoints, AlignEvent.generateDescriptors, AlignEvent.writeVwipFiles,
     AlignEvent.readVwipFiles, AlignEvent.runMatcher, AlignEvent.writeMatchFile]

/-- `StereoSessionIsis::determine_image_alignment`: obtains matched points
through the cache tiers, culls duplicates, and fits a homography by RANSAC;
when the fit throws, it prints a warning and returns the 3×3 identity. -/
def determine_image_alignment (env : AlignEnv) : AlignResult :=
  let matched := tierMatches env
  match env.ransacOut (remove_duplicates matched.1 matched.2) with
  | some T => ⟨T, tierEvents env, false⟩
  | none => ⟨Mat3.identity, tierEvents env, true⟩

/-! ### `StereoSessionIsis::pre_preprocessing_hook` -/

/-- Which branch of the preprocessing stage ran. -/
inductive PreprocPath where
  | mapProjected : PreprocPath
  | unprojected : PreprocPath
deriving DecidableEq

/-- Environment of one `pre_preprocessing_hook` call: the georeferences the
two image *files* actually carry, the `keypoint_alignment` setting, and the
environment for `determine_image_alignment` should it be invoked. -/
structure PreprocEnv where
  fileGeoref1 : Mat3
  fileGeoref2 : Mat3
  keypoint_alignment : Bool
  alignEnv : AlignEnv

/-- Observable outcome of `pre_preprocessing_hook`. -/
structure PreprocOutcome where
  path : PreprocPath
  align_matrix : Mat3
  alignEvents : List AlignEvent
  wroteAlignFile : Bool
deriving DecidableEq

/-- `StereoSessionIsis::pre_preprocessing_hook`.  The call to
`read_georeference` is commented out in the source ("Disabled for now"), so
`input_georef1` and `input_georef2` stay default-constructed — their
transform is the identity whatever `env.fileGeoref1`/`env.fileGeoref2` are —
and the map-projected branch tests those defaults.  In the unprojected
branch the alignment matrix (identity unless `keypoint_alignment` is set) is
always written to `-align.exr`. -/
def pre_preprocessing_hook (env : PreprocEnv) : PreprocOutcome :=
  let input_georef1 : Mat3 := Mat3.identity
  let input_georef2 : Mat3 := Mat3.identity
  if input_georef1 ≠ Mat3.identity ∧ input_georef2 ≠ Mat3.identity then
    ⟨PreprocPath.mapProjected, Mat3.identity, [], false⟩
  else
    if env.keypoint_alignment then
      let r := determine_image_alignment env.alignEnv
      ⟨PreprocPath.unprojected, r.T, r.events, true⟩
    else
      ⟨PreprocPath.unprojected, Mat3.identity, [], true⟩

/-! ### `StereoSessionIsis::pre_pointcloud_hook` -/

/-- Indexed map over a list, carrying the running index. -/
def idxMap {α β : Type} (f : ℕ → α → β) : ℕ → List α → List β
  | _, [] => []
  | i, a :: as => f i a :: idxMap f (i + 1) as

/-- Apply a 3×3 matrix as a homography to a pixel coordinate. -/
def homographyApply (m : Mat3) (p : ℚ × ℚ) : ℚ × ℚ :=
  let w := m.a31 * p.1 + m.a32 * p.2 + m.a33
  ((m.a11 * p.1 + m.a12 * p.2 + m.a13) / w,
   (m.a21 * p.1 + m.a22 * p.2 + m.a23) / w)

/-- Modelled from the spec: `vw::stereo::disparity::transform_disparities`
(the Vision Workbench implementation is not under `src/`) applies the given
coordinate transform to every disparity vector — the valid vector `(dx, dy)`
at pixel `(col, row)` becomes `T(col + dx, row + dy) - (col, row)`; invalid
cells stay invalid. -/
def transform_disparities (g : DGrid) (T : ℚ × ℚ → ℚ × ℚ) : DGrid :=
  idxMap (fun row r =>
    idxMap (fun col cell =>
      cell.map fun v =>
        let t := T ((col : ℚ) + v.1, (row : ℚ) + v.2)
        (t.1 - (col : ℚ), t.2 - (row : ℚ))) 0 r) 0 g

/-- Modelled from the spec: `vw::stereo::disparity::remove_invalid_pixels`
(not under `src/`) marks invalid every disparity vector whose target
coordinate `(col + dx, row + dy)` falls outside the `cols × rows` pixel
bounds of the secondary image. -/
def remove_invalid_pixels (g : DGrid) (cols rows : ℕ) : DGrid :=
  idxMap (fun row r =>
    idxMap (fun col cell =>
      cell.bind fun v =>
        if 0 ≤ (col : ℚ) + v.1 ∧ (col : ℚ) + v.1 < (cols : ℚ) ∧
           0 ≤ (row : ℚ) + v.2 ∧ (row : ℚ) + v.2 < (rows : ℚ)
        then some v else none) 0 r) 0 g

/-- Cell lookup in a disparity field (`none` outside the grid). -/
def getCell (g : DGrid) (row col : ℕ) : Option (ℚ × ℚ) :=
  ((g.get? row).bind fun r => r.get? col).bind id

/-- Environment of one `pre_pointcloud_hook` call: the content of the
persisted `-align.exr` matrix (`none` when the file is absent or unreadable,
in which case `read_matrix` throws), the disparity map, the pixel dimensions
of the secondary image, and the external `GeoTransform` (used only in the
dead map-projected branch). -/
structure PointcloudEnv where
  alignFileContent : Option Mat3
  disparity : DGrid
  rightCols : ℕ
  rightRows : ℕ
  geoTrans : ℚ × ℚ → ℚ × ℚ

/-- Result of `pre_pointcloud_hook`: either `exit(1)` or the disparity field
written to `-F-corrected.exr`. -/
inductive PointcloudResult where
  | fatalExit : ℕ → PointcloudResult
  | written : DGrid → PointcloudResult
deriving DecidableEq

/-- `StereoSessionIsis::pre_pointcloud_hook`.  As in preprocessing, the
georeference read is disabled, so the map-projected branch tests
default-constructed (identity) georeferences and is dead.  In the
unprojected branch a missing/unreadable `-align.exr` is fatal (`exit(1)`);
otherwise the matrix is applied to every disparity vector and vectors whose
transformed target leaves the secondary image's bounds are invalidated. -/
def pre_pointcloud_hook (env : PointcloudEnv) : PointcloudResult :=
  let input_georef1 : Mat3 := Mat3.identity
  let input_georef2 : Mat3 := Mat3.identity
  if input_georef1 ≠ Mat3.identity ∧ input_georef2 ≠ Mat3.identity then
    PointcloudResult.written (transform_disparities env.disparity env.geoTrans)
  else
    match env.alignFileContent with
    | none => PointcloudResult.fatalExit 1
    | some m =>
        PointcloudResult.written
          (remove_invalid_pixels
            (transform_disparities env.disparity (homographyApply m))
            env.rightCols env.rightRows)

/-! ### Concrete instances used by counterexamples and witnesses -/

/-- Grid for C3's sample-mean versus row-mean distinction:
valid `dX` samples `[0, 3, 3]` (sample mean `2`), per-row `dX` means `[0, 3]`
(whose mean is `3/2`). -/
def gC3 : DGrid := [[some (0, 0)], [some (3, 0), some (3, 0)]]

/-- Environment for C3: both inputs exist, no row log. -/
def envC3 : ShiftEnv := ⟨true, true, false, false, gC3⟩

/-- Environment for C4's witness: both inputs exist, no row log, one valid
cell. -/
def envC4 : ShiftEnv := ⟨true, true, false, false, [[none, some (2, 1)], [none]]⟩

/-- Environment for C8's counterexample: the left input file is missing. -/
def envC8 : ShiftEnv := ⟨false, true, false, false, [[some (1, 1)]]⟩

/-- Environment for C9's counterexample: a row log is requested and
writable, and no cell of the disparity map is valid. -/
def envC9 : ShiftEnv := ⟨true, true, true, false, [[none]]⟩

/-- An alignment environment whose `.match` artifact exists and whose RANSAC
always fails. -/
def alignEnvC7 : AlignEnv :=
  ⟨true, false, false, ([], []), ([], []), ([], []), fun p => p, fun _ => none⟩

/-- A non-identity georeference transform. -/
def nonIdGeoref : Mat3 := ⟨2, 0, 0, 0, 2, 0, 0, 0, 2⟩

/-- Environment for C7's counterexample: both image files carry a
non-identity georeference, keypoint alignment is enabled, and the `.match`
cache artifact exists. -/
def envC7 : PreprocEnv := ⟨nonIdGeoref, nonIdGeoref, true, alignEnvC7⟩

/-- Alignment environment for C6's witness, tier 1: the `.match` file
exists. -/
def alignEnvTier1 : AlignEnv :=
  ⟨true, true, true, ([(1, 2, 1)], [(3, 4, 1)]), ([], []), ([], []),
   fun p => p, fun _ => some Mat3.identity⟩

/-- Alignment environment for C6's witness, tier 2: only the two `.vwip`
files exist. -/
def alignEnvTier2 : AlignEnv :=
  ⟨false, true, true, ([], []), ([(1, 2, 1)], [(3, 4, 1)]), ([], []),
   fun p => p, fun _ => some Mat3.identity⟩

/-- Alignment environment for C6's witness, tier 3: no artifact exists. -/
def alignEnvTier3 : AlignEnv :=
  ⟨false, false, true, ([], []), ([], []), ([(1, 2, 1)], [(3, 4, 1)]),
   fun p => p, fun _ => some Mat3.identity⟩

/-- Alignment environment for C2's witness: cached matches exist and the
RANSAC fit fails. -/
def alignEnvC2 : AlignEnv :=
  ⟨true, false, false, ([(1, 2, 1)], [(3, 4, 1)]), ([], []), ([], []),
   fun p => p, fun _ => none⟩

/-- Point-cloud environment for C2's witness with the alignment file
missing. -/
def pcEnvMissing : PointcloudEnv := ⟨none, [[some (1, 1)]], 4, 4, fun p => p⟩

/-- Point-cloud environment for C2's witness with the alignment file
present (identity matrix, one valid in-bounds cell and one valid
out-of-bounds cell). -/
def pcEnvPresent : PointcloudEnv :=
  ⟨some Mat3.identity, [[some (1, 1), some (9, 0)]], 4, 4, fun p => p⟩

/-- Preprocessing environment for C2's witness: keypoint alignment enabled
and a failing RANSAC. -/
def preprocEnvC2 : PreprocEnv := ⟨Mat3.identity, Mat3.identity, true, alignEnvC2⟩

/-- First coordinate list for C5's witness (indices 0 and 2 are duplicates). -/
def ip1C5 : List Vec3 := [(1, 1, 1), (2, 2, 2), (1, 1, 1)]

/-- Second coordinate list for C5's witness. -/
def ip2C5 : List Vec3 := [(5, 5, 5), (6, 6, 6), (7, 7, 7)]

/-! ## Lemmas about the streaming accumulator -/

namespace RunningStandardDeviation

lemma pushList_append (s : RunningStandardDeviation) (a b : List ℚ) :
    pushList s (a ++ b) = pushList (pushList s a) b :=
  List.foldl_append Push s a b

lemma Push_m_n (s : RunningStandardDeviation) (x : ℚ) :
    (Push s x).m_n = s.m_n + 1 := by
  unfold Push
  by_cases h : s.m_n + 1 = 1 <;> simp [h]

lemma pushList_m_n (xs : List ℚ) :
    ∀ s : RunningStandardDeviation, (pushList s xs).m_n = s.m_n + xs.length := by
  induction xs with
  | nil => intro s; simp [pushList]
  | cons x l ih =>
      intro s
      have : pushList s (x :: l) = pushList (Push s x) l := rfl
      rw [this, ih, Push_m_n, List.length_cons]
      omega

/-- Full characterization of the accumulator state after pushing a nonempty
sample list onto a state with `m_n = 0`: the running mean is the arithmetic
mean and the accumulated `m_oldS` is the sum of squared deviations in the
form `Σ x² - (Σ x)² / n`; after at least two pushes `m_newS` agrees with
`m_oldS`, while after exactly one push `m_newS` is left stale. -/
lemma pushList_cons_spec (x : ℚ) (xs : List ℚ) :
    ∀ s : RunningStandardDeviation, s.m_n = 0 →
      (pushList s (x :: xs)).m_n = xs.length + 1
    ∧ (pushList s (x :: xs)).m_newM = (x :: xs).sum / ((xs.length : ℚ) + 1)
    ∧ (pushList s (x :: xs)).m_oldM = (pushList s (x :: xs)).m_newM
    ∧ (pushList s (x :: xs)).m_oldS
        = sumSq (x :: xs) - (x :: xs).sum * (x :: xs).sum / ((xs.length : ℚ) + 1)
    ∧ (xs = [] → (pushList s (x :: xs)).m_newS = s.m_newS)
    ∧ (xs ≠ [] → (pushList s (x :: xs)).m_newS = (pushList s (x :: xs)).m_oldS) := by
  induction xs using List.reverseRecOn with
  | nil =>
      intro s hs
      have h1 : pushList s [x] = Push s x := rfl
      have hn : s.m_n + 1 = 1 := by omega
      rw [h1]
      unfold Push
      simp [hn, hs, sumSq]
  | append_singleton ys y ih =>
      intro s hs
      obtain ⟨h1, h2, h3, h4, _, _⟩ := ih s hs
      have hsplit : pushList s (x :: (ys ++ [y])) = Push (pushList s (x :: ys)) y := by
        have : x :: (ys ++ [y]) = (x :: ys) ++ [y] := rfl
        rw [this, pushList_append]
        rfl
      set t := pushList s (x :: ys) with ht
      have hlen : ((ys.length : ℚ)) + 1 ≠ 0 := by positivity
      have hlen2 : ((ys.length : ℚ)) + 2 ≠ 0 := by positivity
      have hne : t.m_n + 1 ≠ 1 := by omega
      have hpush : Push t y =
          { m_n := t.m_n + 1,
            m_oldM := t.m_oldM + (y - t.m_oldM) / ((t.m_n + 1 : ℕ) : ℚ),
            m_newM := t.m_oldM + (y - t.m_oldM) / ((t.m_n + 1 : ℕ) : ℚ),
            m_oldS := t.m_oldS + (y - t.m_oldM) *
              (y - (t.m_oldM + (y - t.m_oldM) / ((t.m_n + 1 : ℕ) : ℚ))),
            m_newS := t.m_oldS + (y - t.m_oldM) *
              (y - (t.m_oldM + (y - t.m_oldM) / ((t.m_n + 1 : ℕ) : ℚ))) } := by
        unfold Push
        simp [hne]
      have hcast : (((t.m_n + 1 : ℕ)) : ℚ) = (ys.length : ℚ) + 2 := by
        rw [h1]; push_cast; ring
      have hS : (x :: (ys ++ [y])).sum = (x :: ys).sum + y := by
        simp
        ring
      have hQ : sumSq (x :: (ys ++ [y])) = sumSq (x :: ys) + y * y := by
        simp [sumSq]
        ring
      have hL : ((ys ++ [y]).length : ℚ) + 1 = (ys.length : ℚ) + 2 := by
        simp
        ring
      have hLn : (ys ++ [y]).length + 1 = ys.length + 1 + 1 := by simp
      refine ⟨?_, ?_, ?_, ?_, ?_, ?_⟩
      · rw [hsplit, Push_m_n, h1, hLn]
      · rw [hsplit, hpush]
        show t.m_oldM + (y - t.m_oldM) / (((t.m_n + 1 : ℕ)) : ℚ)
            = (x :: (ys ++ [y])).sum / (((ys ++ [y]).length : ℚ) + 1)
        rw [hcast, h3, h2, hS, hL]
        field_simp
        ring
      · rw [hsplit, hpush]
      · rw [hsplit, hpush]
        show t.m_oldS + (y - t.m_oldM) *
              (y - (t.m_oldM + (y - t.m_oldM) / (((t.m_n + 1 : ℕ)) : ℚ)))
            = sumSq (x :: (ys ++ [y]))
              - (x :: (ys ++ [y])).sum * (x :: (ys ++ [y])).sum
                / (((ys ++ [y]).length : ℚ) + 1)
        rw [hcast, h3, h2, h4, hS, hQ, hL]
        field_simp
        ring
      · intro hcases
        exact absurd hcases (by simp)
      · intro _
        rw [hsplit, hpush]

/-- The running mean after a nonempty push sequence from an `m_n = 0` state
is the arithmetic mean of the samples. -/
lemma Mean_pushList (s : RunningStandardDeviation) (hs : s.m_n = 0)
    (xs : List ℚ) (hxs : xs ≠ []) :
    Mean (pushList s xs) = xs.sum / (xs.length : ℚ) := by
  obtain ⟨x, l, rfl⟩ := List.exists_cons_of_ne_nil hxs
  obtain ⟨h1, h2, _, _, _, _⟩ := pushList_cons_spec x l s hs
  have hpos : 0 < (pushList s (x :: l)).m_n := by omega
  rw [Mean, if_pos hpos, h2]
  norm_num

end RunningStandardDeviation

/-! ## Claim C1 -/

/-- A state with one pushed sample, used by C1's witness. -/
def sC1 : RunningStandardDeviation := ⟨1, 2, 2, 0, 0⟩

open RunningStandardDeviation in
/-- C1: the streaming-statistics accumulator implements Welford's
single-pass update — a push onto a state holding `n ≥ 1` samples sets the
running mean to `mean + (x - mean) / n` (with `n` the incremented count) and
the squared-deviation sum to `sumSq + (x - oldMean) * (x - newMean)`, while
the first push initializes the mean to `x` and the sum to `0`; `Variance()`
returns `sumSq / (n - 1)` when `n > 1` and `0` otherwise; `Mean()` returns
`0` before any push and equals the arithmetic mean of the samples after any
nonempty push sequence; pushing `[2,4,4,4,5,5,7,9]` yields `Mean() = 5` and
`Variance() = 32/7`. -/
theorem C1_streaming_stats_welford :
    (∀ (s : RunningStandardDeviation) (x : ℚ), 1 ≤ s.m_n →
        (Push s x).m_n = s.m_n + 1
      ∧ (Push s x).m_newM = s.m_oldM + (x - s.m_oldM) / ((s.m_n : ℚ) + 1)
      ∧ (Push s x).m_newS = s.m_oldS + (x - s.m_oldM) * (x - (Push s x).m_newM))
  ∧ (∀ (s : RunningStandardDeviation) (x : ℚ), s.m_n = 0 →
        (Push s x).m_newM = x ∧ (Push s x).m_oldS = 0)
  ∧ (∀ s : RunningStandardDeviation, 1 < s.m_n →
        Variance s = s.m_newS / ((s.m_n : ℚ) - 1))
  ∧ (∀ s : RunningStandardDeviation, s.m_n ≤ 1 → Variance s = 0)
  ∧ Mean init = 0
  ∧ (∀ xs : List ℚ, xs ≠ [] → Mean (pushList init xs) = xs.sum / (xs.length : ℚ))
  ∧ Mean (pushList init [2, 4, 4, 4, 5, 5, 7, 9]) = 5
  ∧ Variance (pushList init [2, 4, 4, 4, 5, 5, 7, 9]) = 32 / 7 := by
  refine ⟨?_, ?_, ?_, ?_, by norm_num [Mean, init], ?_, ?_, ?_⟩
  · intro s x h
    have hne : s.m_n + 1 ≠ 1 := by omega
    refine ⟨Push_m_n s x, ?_, ?_⟩
    · unfold Push
      simp [hne]
    · unfold Push
      simp [hne]
  · intro s x h
    have hn : s.m_n + 1 = 1 := by omega
    unfold Push
    simp [hn]
  · intro s h
    rw [Variance, if_pos h]
  · intro s h
    rw [Variance, if_neg (by omega)]
  · exact fun xs h => Mean_pushList init rfl xs h
  · rw [Mean_pushList init rfl _ (by simp)]
    norm_num
  · obtain ⟨e1, _, _, e4, _, e6⟩ :=
      pushList_cons_spec 2 [4, 4, 4, 5, 5, 7, 9] init rfl
    rw [Variance, if_pos (by rw [e1]; norm_num), e6 (by simp), e4, e1]
    norm_num [sumSq]

open RunningStandardDeviation in
/-- Witness for C1: the theorem applied at the concrete one-sample state
`sC1` and at the concrete sample list `[2]`. -/
theorem C1_streaming_stats_welford_witness :
    1 ≤ sC1.m_n
  ∧ (Push sC1 5).m_newM = sC1.m_oldM + (5 - sC1.m_oldM) / ((sC1.m_n : ℚ) + 1)
  ∧ ([2] : List ℚ) ≠ []
  ∧ Mean (pushList init [2]) = ([2] : List ℚ).sum / (([2] : List ℚ).length : ℚ) := by
  have h1 : 1 ≤ sC1.m_n := by norm_num [sC1]
  have h2 : ([2] : List ℚ) ≠ [] := by simp
  exact ⟨h1, (C1_streaming_stats_welford.1 sC1 5 h1).2.1, h2,
    C1_streaming_stats_welford.2.2.2.2.2.1 [2] h2⟩

/-! ## Claim C10 -/

open RunningStandardDeviation in
/-- C10: after `Clear()` the accumulator behaves exactly like a freshly
constructed instance — for every subsequent push sequence `Count`, `Mean`,
`Variance` and `StandardDeviation` agree with a fresh accumulator given the
same pushes, and before any push after `Clear()` both `Mean()` and
`Variance()` return `0`. -/
theorem C10_clear_behaves_like_fresh :
    ∀ (s : RunningStandardDeviation) (xs : List ℚ),
      NumDataValues (pushList (Clear s) xs) = NumDataValues (pushList init xs)
    ∧ Mean (pushList (Clear s) xs) = Mean (pushList init xs)
    ∧ Variance (pushList (Clear s) xs) = Variance (pushList init xs)
    ∧ StandardDeviation (pushList (Clear s) xs) = StandardDeviation (pushList init xs)
    ∧ Mean (Clear s) = 0
    ∧ Variance (Clear s) = 0 := by
  intro s xs
  have hclear : (Clear s).m_n = 0 := rfl
  have hinit : (init).m_n = 0 := rfl
  have hMean0 : Mean (Clear s) = 0 := by
    rw [Mean, if_neg (by omega)]
  have hVar0 : Variance (Clear s) = 0 := by
    rw [Variance, if_neg (by omega)]
  cases xs with
  | nil =>
      refine ⟨by simp [pushList, NumDataValues, hclear, hinit], ?_, ?_, ?_, hMean0, hVar0⟩
      · show Mean (Clear s) = Mean init
        rw [hMean0, Mean, if_neg (by omega)]
      · show Variance (Clear s) = Variance init
        rw [hVar0, Variance, if_neg (by omega)]
      · show StandardDeviation (Clear s) = StandardDeviation init
        rw [StandardDeviation, StandardDeviation, hVar0, Variance, if_neg (by omega)]
  | cons x l =>
      obtain ⟨a1, a2, _, a4, _, a6⟩ := pushList_cons_spec x l (Clear s) hclear
      obtain ⟨b1, b2, _, b4, _, b6⟩ := pushList_cons_spec x l init hinit
      have hn : NumDataValues (pushList (Clear s) (x :: l))
          = NumDataValues (pushList init (x :: l)) := by
        rw [NumDataValues, NumDataValues, a1, b1]
      have hm : Mean (pushList (Clear s) (x :: l)) = Mean (pushList init (x :: l)) := by
        rw [Mean, Mean, if_pos (by omega), if_pos (by omega), a2, b2]
      have hv : Variance (pushList (Clear s) (x :: l))
          = Variance (pushList init (x :: l)) := by
        by_cases hl : l = []
        · subst hl
          have ha : (pushList (Clear s) (x :: [])).m_n = 1 := by rw [a1]; rfl
          have hb : (pushList init (x :: [])).m_n = 1 := by rw [b1]; rfl
          rw [Variance, Variance, if_neg (by omega), if_neg (by omega)]
        · have hlen : 1 ≤ l.length := List.length_pos.mpr hl
          rw [Variance, Variance, if_pos (by omega), if_pos (by omega),
            a6 hl, b6 hl, a4, b4, a1, b1]
      refine ⟨hn, hm, hv, ?_, hMean0, hVar0⟩
      rw [StandardDeviation, StandardDeviation, hv]

/-! ## Lemmas about the `determineShifts` loop -/

lemma foldl_processRow_stdCalcX (g : DGrid) :
    ∀ acc : ShiftAccum,
      (g.foldl processRow acc).stdCalcX
        = RunningStandardDeviation.pushList acc.stdCalcX ((validSamples g).map Prod.fst) := by
  induction g with
  | nil =>
      intro acc
      simp [validSamples, RunningStandardDeviation.pushList]
  | cons r rest ih =>
      intro acc
      rw [List.foldl_cons, ih]
      have h2 : (processRow acc r).stdCalcX
          = RunningStandardDeviation.pushList acc.stdCalcX ((r.filterMap id).map Prod.fst) := rfl
      rw [h2, ← RunningStandardDeviation.pushList_append, ← List.map_append]
      have h3 : validSamples (r :: rest) = r.filterMap id ++ validSamples rest := by
        simp [validSamples]
      rw [h3]

lemma foldl_processRow_stdCalcY (g : DGrid) :
    ∀ acc : ShiftAccum,
      (g.foldl processRow acc).stdCalcY
        = RunningStandardDeviation.pushList acc.stdCalcY ((validSamples g).map Prod.snd) := by
  induction g with
  | nil =>
      intro acc
      simp [validSamples, RunningStandardDeviation.pushList]
  | cons r rest ih =>
      intro acc
      rw [List.foldl_cons, ih]
      have h2 : (processRow acc r).stdCalcY
          = RunningStandardDeviation.pushList acc.stdCalcY ((r.filterMap id).map Prod.snd) := rfl
      rw [h2, ← RunningStandardDeviation.pushList_append, ← List.map_append]
      have h3 : validSamples (r :: rest) = r.filterMap id ++ validSamples rest := by
        simp [validSamples]
      rw [h3]

lemma foldl_processRow_numValidRows (g : DGrid) :
    ∀ acc : ShiftAccum,
      (g.foldl processRow acc).numValidRows
        = acc.numValidRows + (g.countP fun r => !(r.filterMap id).isEmpty) := by
  induction g with
  | nil => intro acc; simp
  | cons r rest ih =>
      intro acc
      rw [List.foldl_cons, ih, List.countP_cons]
      have h2 : (processRow acc r).numValidRows
          = acc.numValidRows + (if (r.filterMap id).length = 0 then 0 else 1) := rfl
      rw [h2]
      by_cases h : (r.filterMap id).length = 0
      · have he : (r.filterMap id).isEmpty = true := by
          rw [List.isEmpty_iff, ← List.length_eq_zero]
          exact h
        simp [h, he]
      · have he : (r.filterMap id).isEmpty = false := by
          rw [Bool.eq_false_iff]
          intro hc
          exact h (List.length_eq_zero.mpr (List.isEmpty_iff.mp hc))
        simp [h, he]
        omega

lemma foldl_processRow_rowOffsets (g : DGrid) :
    ∀ acc : ShiftAccum,
      (g.foldl processRow acc).rowOffsets = acc.rowOffsets ++ g.map rowMeanLine := by
  induction g with
  | nil => intro acc; simp
  | cons r rest ih =>
      intro acc
      rw [List.foldl_cons, ih]
      have h2 : (processRow acc r).rowOffsets = acc.rowOffsets ++ [rowMeanLine r] := rfl
      rw [h2]
      simp

lemma foldl_processRow_colOffsets (g : DGrid) :
    ∀ acc : ShiftAccum,
      (g.foldl processRow acc).colOffsets = acc.colOffsets ++ g.map rowMeanSamp := by
  induction g with
  | nil => intro acc; simp
  | cons r rest ih =>
      intro acc
      rw [List.foldl_cons, ih]
      have h2 : (processRow acc r).colOffsets = acc.colOffsets ++ [rowMeanSamp r] := rfl
      rw [h2]
      simp

lemma validSamples_eq_nil_iff (g : DGrid) :
    validSamples g = [] ↔ ∀ r ∈ g, r.filterMap id = ([] : List (ℚ × ℚ)) := by
  simp [validSamples]

lemma numValidRows_eq_zero_iff (g : DGrid) :
    (accumulateShifts g).numValidRows = 0
      ↔ ∀ r ∈ g, r.filterMap id = ([] : List (ℚ × ℚ)) := by
  rw [accumulateShifts, foldl_processRow_numValidRows]
  simp [initShiftAccum, List.countP_eq_zero, List.isEmpty_iff]

/-- `determineShifts` on an environment whose file checks and log opening
succeed reduces to the accumulation phase. -/
lemma determineShifts_run (env : ShiftEnv) (h1 : env.leftExists = true)
    (h2 : env.rightExists = true)
    (h3 : (env.writeLogFile && env.logOpenFails) = false) :
    determineShifts env =
      (let acc := accumulateShifts env.disparity
       let rowLines :=
         if env.writeLogFile then some (acc.rowOffsets.zip acc.colOffsets) else none
       if acc.numValidRows = 0 then
         ⟨ShiftResult.noValidMatches, true, env.writeLogFile, false, rowLines⟩
       else
         ⟨ShiftResult.success (RunningStandardDeviation.Mean acc.stdCalcX)
             (RunningStandardDeviation.Mean acc.stdCalcY),
           false, false, env.writeLogFile, rowLines⟩) := by
  rw [determineShifts]
  simp [h1, h2, h3]

/-- On any failure path `determineShifts` has printed a diagnostic. -/
lemma determineShifts_diag (env : ShiftEnv)
    (h : ∀ dX dY, (determineShifts env).result ≠ ShiftResult.success dX dY) :
    (determineShifts env).diagnosticPrinted = true := by
  unfold determineShifts at h ⊢
  by_cases h1 : env.leftExists
  · by_cases h2 : env.rightExists
    · by_cases h3 : env.writeLogFile && env.logOpenFails
      · simp [h1, h2, h3]
      · by_cases h4 : (accumulateShifts env.disparity).numValidRows = 0
        · simp [h1, h2, h3, h4]
        · exfalso
          refine h (RunningStandardDeviation.Mean (accumulateShifts env.disparity).stdCalcX)
            (RunningStandardDeviation.Mean (accumulateShifts env.disparity).stdCalcY) ?_
          simp [h1, h2, h3, h4]
    · simp [h1, h2]
  · simp [h1]

/-! ## Claim C4 -/

/-- C4: granted that both input files exist and the row log (if requested)
opens, `determineShifts` fails with `NoValidMatches` exactly when no row of
the disparity field has a valid cell; otherwise it succeeds and assigns the
two offsets; the `NoValidMatches` failure prints a diagnostic. -/
theorem C4_no_valid_matches_iff :
    ∀ env : ShiftEnv, env.leftExists = true → env.rightExists = true →
      (env.writeLogFile && env.logOpenFails) = false →
      (((determineShifts env).result = ShiftResult.noValidMatches) ↔
          ∀ r ∈ env.disparity, r.filterMap id = ([] : List (ℚ × ℚ)))
    ∧ ((¬ ∀ r ∈ env.disparity, r.filterMap id = ([] : List (ℚ × ℚ))) →
        ∃ dX dY, (determineShifts env).result = ShiftResult.success dX dY)
    ∧ ((determineShifts env).result = ShiftResult.noValidMatches →
        (determineShifts env).diagnosticPrinted = true) := by
  intro env h1 h2 h3
  have hrun := determineShifts_run env h1 h2 h3
  by_cases hz : (accumulateShifts env.disparity).numValidRows = 0
  · have hres : (determineShifts env).result = ShiftResult.noValidMatches := by
      rw [hrun]
      simp [hz]
    have hdiag : (determineShifts env).diagnosticPrinted = true := by
      rw [hrun]
      simp [hz]
    refine ⟨?_, ?_, fun _ => hdiag⟩
    · rw [hres]
      exact iff_of_true rfl ((numValidRows_eq_zero_iff _).mp hz)
    · intro hc
      exact absurd ((numValidRows_eq_zero_iff _).mp hz) hc
  · have hres : (determineShifts env).result = ShiftResult.success
        (RunningStandardDeviation.Mean (accumulateShifts env.disparity).stdCalcX)
        (RunningStandardDeviation.Mean (accumulateShifts env.disparity).stdCalcY) := by
      rw [hrun]
      simp [hz]
    refine ⟨?_, ?_, ?_⟩
    · rw [hres]
      refine iff_of_false (by simp) ?_
      intro hall
      exact hz ((numValidRows_eq_zero_iff _).mpr hall)
    · intro _
      exact ⟨_, _, hres⟩
    · rw [hres]
      intro hc
      cases hc

/-- Witness for C4: the theorem applied at `envC4`, whose disparity field
has one valid cell. -/
theorem C4_no_valid_matches_iff_witness :
    (¬ ∀ r ∈ envC4.disparity, r.filterMap id = ([] : List (ℚ × ℚ)))
  ∧ ∃ dX dY, (determineShifts envC4).result = ShiftResult.success dX dY := by
  have hne : ¬ ∀ r ∈ envC4.disparity, r.filterMap id = ([] : List (ℚ × ℚ)) := by
    intro h
    have := h [none, some (2, 1)] (by simp [envC4])
    simp at this
  exact ⟨hne, (C4_no_valid_matches_iff envC4 rfl rfl rfl).2.1 hne⟩

/-! ## Claim C3 -/

/-- C3: for every disparity field (with the input files present and the log
writable), the final global offset is per axis the mean over all valid
samples fed to the streaming accumulators; each per-row mean is the row's
sum of valid `dx` (resp. `dy`) over the row's valid count, `0` for a row
with no valid cell; and on the concrete grid `gC3` the global offset `2`
differs from the mean `3/2` of the per-row means, so the offset is not the
mean of the per-row means. -/
theorem C3_offset_is_mean_over_samples :
    (∀ env : ShiftEnv, env.leftExists = true → env.rightExists = true →
        (env.writeLogFile && env.logOpenFails) = false →
        validSamples env.disparity ≠ [] →
        (determineShifts env).result = ShiftResult.success
          (((validSamples env.disparity).map Prod.fst).sum
            / ((validSamples env.disparity).length : ℚ))
          (((validSamples env.disparity).map Prod.snd).sum
            / ((validSamples env.disparity).length : ℚ)))
  ∧ (∀ g : DGrid,
        (accumulateShifts g).colOffsets = g.map (fun r =>
          if (r.filterMap id).length = 0 then 0
          else ((r.filterMap id).map Prod.fst).sum / (((r.filterMap id).length : ℚ)))
      ∧ (accumulateShifts g).rowOffsets = g.map (fun r =>
          if (r.filterMap id).length = 0 then 0
          else ((r.filterMap id).map Prod.snd).sum / (((r.filterMap id).length : ℚ))))
  ∧ (determineShifts envC3).result = ShiftResult.success 2 0
  ∧ (accumulateShifts gC3).colOffsets = [0, 3]
  ∧ ((accumulateShifts gC3).colOffsets.sum
      / ((accumulateShifts gC3).colOffsets.length : ℚ)) ≠ 2 := by
  have hperrow : ∀ g : DGrid,
      (accumulateShifts g).colOffsets = g.map (fun r =>
        if (r.filterMap id).length = 0 then 0
        else ((r.filterMap id).map Prod.fst).sum / (((r.filterMap id).length : ℚ)))
    ∧ (accumulateShifts g).rowOffsets = g.map (fun r =>
        if (r.filterMap id).length = 0 then 0
        else ((r.filterMap id).map Prod.snd).sum / (((r.filterMap id).length : ℚ))) := by
    intro g
    constructor
    · rw [accumulateShifts, foldl_processRow_colOffsets]
      simp [initShiftAccum, rowMeanSamp]
    · rw [accumulateShifts, foldl_processRow_rowOffsets]
      simp [initShiftAccum, rowMeanLine]
  have hmain : ∀ env : ShiftEnv, env.leftExists = true → env.rightExists = true →
      (env.writeLogFile && env.logOpenFails) = false →
      validSamples env.disparity ≠ [] →
      (determineShifts env).result = ShiftResult.success
        (((validSamples env.disparity).map Prod.fst).sum
          / ((validSamples env.disparity).length : ℚ))
        (((validSamples env.disparity).map Prod.snd).sum
          / ((validSamples env.disparity).length : ℚ)) := by
    intro env h1 h2 h3 h4
    have hz : ¬ (accumulateShifts env.disparity).numValidRows = 0 := by
      intro hc
      exact h4 ((validSamples_eq_nil_iff _).mpr ((numValidRows_eq_zero_iff _).mp hc))
    have hrun := determineShifts_run env h1 h2 h3
    have hres : (determineShifts env).result = ShiftResult.success
        (RunningStandardDeviation.Mean (accumulateShifts env.disparity).stdCalcX)
        (RunningStandardDeviation.Mean (accumulateShifts env.disparity).stdCalcY) := by
      rw [hrun]
      simp [hz]
    rw [hres]
    have hx : (accumulateShifts env.disparity).stdCalcX
        = RunningStandardDeviation.pushList RunningStandardDeviation.init
            ((validSamples env.disparity).map Prod.fst) := by
      rw [accumulateShifts, foldl_processRow_stdCalcX]
      rfl
    have hy : (accumulateShifts env.disparity).stdCalcY
        = RunningStandardDeviation.pushList RunningStandardDeviation.init
            ((validSamples env.disparity).map Prod.snd) := by
      rw [accumulateShifts, foldl_processRow_stdCalcY]
      rfl
    have hnx : (validSamples env.disparity).map Prod.fst ≠ [] := by
      simpa using h4
    have hny : (validSamples env.disparity).map Prod.snd ≠ [] := by
      simpa using h4
    rw [hx, hy, RunningStandardDeviation.Mean_pushList _ rfl _ hnx,
      RunningStandardDeviation.Mean_pushList _ rfl _ hny]
    simp
  refine ⟨hmain, hperrow, ?_, ?_, ?_⟩
  · have h4 : validSamples envC3.disparity ≠ [] := by
      simp [envC3, gC3, validSamples]
    have := hmain envC3 rfl rfl rfl h4
    rw [this]
    have hv : validSamples envC3.disparity = [(0, 0), (3, 0), (3, 0)] := by
      simp [envC3, gC3, validSamples]
    rw [hv]
    norm_num
  · rw [(hperrow gC3).1]
    simp [gC3, List.filterMap_cons]
  · rw [(hperrow gC3).1]
    simp [gC3, List.filterMap_cons]
    norm_num

/-- Witness for C3: the theorem applied at the concrete environment
`envC3`. -/
theorem C3_offset_is_mean_over_samples_witness :
    validSamples envC3.disparity ≠ []
  ∧ (determineShifts envC3).result = ShiftResult.success
      (((validSamples envC3.disparity).map Prod.fst).sum
        / ((validSamples envC3.disparity).length : ℚ))
      (((validSamples envC3.disparity).map Prod.snd).sum
        / ((validSamples envC3.disparity).length : ℚ)) := by
  have h4 : validSamples envC3.disparity ≠ [] := by
    simp [envC3, gC3, validSamples]
  exact ⟨h4, C3_offset_is_mean_over_samples.1 envC3 rfl rfl rfl h4⟩

/-! ## Claim C9 (corrected) -/

/-- Counterexample to C9 as stated: with a row log requested and a
disparity field with no valid cell at all, the `NULL` summary branch *is*
executed (the summary is written before the `numValidRows == 0` check), even
though the run then aborts with `NoValidMatches`. -/
theorem C9_counterexample :
    (determineShifts envC9).nullSummaryWritten = true
  ∧ (determineShifts envC9).result = ShiftResult.noValidMatches := by
  constructor <;> rfl

/-- C9 (amended): the `NULL` summary branch is live, not dead — with the
input files present and the log writable it executes exactly when a row log
is requested and no row has a valid cell, and whenever it executes the run
aborts with `NoValidMatches` (but only *after* the log summary is
written). -/
theorem C9_null_branch_live :
    ∀ env : ShiftEnv, env.leftExists = true → env.rightExists = true →
      env.logOpenFails = false →
      ((determineShifts env).nullSummaryWritten = true
        ↔ (env.writeLogFile = true
            ∧ ∀ r ∈ env.disparity, r.filterMap id = ([] : List (ℚ × ℚ))))
    ∧ ((determineShifts env).nullSummaryWritten = true →
        (determineShifts env).result = ShiftResult.noValidMatches) := by
  intro env h1 h2 h3
  have h3' : (env.writeLogFile && env.logOpenFails) = false := by
    rw [h3]
    simp
  have hrun := determineShifts_run env h1 h2 h3'
  by_cases hz : (accumulateShifts env.disparity).numValidRows = 0
  · have hnull : (determineShifts env).nullSummaryWritten = env.writeLogFile := by
      rw [hrun]
      simp [hz]
    have hres : (determineShifts env).result = ShiftResult.noValidMatches := by
      rw [hrun]
      simp [hz]
    constructor
    · rw [hnull]
      constructor
      · intro hw
        exact ⟨hw, (numValidRows_eq_zero_iff _).mp hz⟩
      · rintro ⟨hw, _⟩
        exact hw
    · intro _
      exact hres
  · have hnull : (determineShifts env).nullSummaryWritten = false := by
      rw [hrun]
      simp [hz]
    constructor
    · rw [hnull]
      constructor
      · intro hc
        cases hc
      · rintro ⟨_, hall⟩
        exact absurd ((numValidRows_eq_zero_iff _).mpr hall) hz
    · rw [hnull]
      intro hc
      cases hc

/-- Witness for the amended C9: the theorem applied at `envC9`. -/
theorem C9_null_branch_live_witness :
    (determineShifts envC9).nullSummaryWritten = true
  ∧ (determineShifts envC9).result = ShiftResult.noValidMatches := by
  have h := C9_null_branch_live envC9 rfl rfl rfl
  have hnull : (determineShifts envC9).nullSummaryWritten = true := by
    refine h.1.mpr ⟨rfl, ?_⟩
    intro r hr
    have : r = [none] := by
      simpa [envC9] using hr
    rw [this]
    rfl
  exact ⟨hnull, h.2 hnull⟩

/-! ## Claim C8 (corrected) -/

/-- Counterexample to C8 as stated: with the left input file missing, the
stage fails and prints a diagnostic, no offsets are printed, but `main`
falls through to `return 0`, so the process exit status is `0`, not
non-zero. -/
theorem C8_counterexample :
    (determineShifts envC8).result = ShiftResult.inputMissing
  ∧ (mainRun envC8).diagnosticPrinted = true
  ∧ (mainRun envC8).printedOffsets = none
  ∧ (mainRun envC8).exitCode = 0 := by
  exact ⟨rfl, rfl, rfl, rfl⟩

/-- C8 (amended): when a stage fails, a diagnostic is printed and no offsets
are printed, but the exit status is `0` (not non-zero); offsets are printed
exactly on success. -/
theorem C8_driver_exit_zero :
    ∀ env : ShiftEnv,
      ((∀ dX dY, (determineShifts env).result ≠ ShiftResult.success dX dY) →
          (mainRun env).diagnosticPrinted = true
        ∧ (mainRun env).printedOffsets = none
        ∧ (mainRun env).exitCode = 0)
    ∧ (∀ dX dY, (determineShifts env).result = ShiftResult.success dX dY →
          (mainRun env).printedOffsets = some (dX, dY)
        ∧ (mainRun env).exitCode = 0) := by
  intro env
  constructor
  · intro hfail
    have hdiag := determineShifts_diag env hfail
    rcases hres : (determineShifts env).result with _ | _ | _ | ⟨dX, dY⟩
    · exact ⟨by simp [mainRun, hres, hdiag], by simp [mainRun, hres], by simp [mainRun, hres]⟩
    · exact ⟨by simp [mainRun, hres, hdiag], by simp [mainRun, hres], by simp [mainRun, hres]⟩
    · exact ⟨by simp [mainRun, hres, hdiag], by simp [mainRun, hres], by simp [mainRun, hres]⟩
    · exact absurd hres (hfail dX dY)
  · intro dX dY hres
    exact ⟨by simp [mainRun, hres], by simp [mainRun, hres]⟩

/-- Witness for the amended C8: the theorem applied at `envC8` (missing left
input). -/
theorem C8_driver_exit_zero_witness :
    (∀ dX dY, (determineShifts envC8).result ≠ ShiftResult.success dX dY)
  ∧ (mainRun envC8).diagnosticPrinted = true
  ∧ (mainRun envC8).exitCode = 0 := by
  have h : ∀ dX dY, (determineShifts envC8).result ≠ ShiftResult.success dX dY := by
    intro dX dY hc
    rw [show (determineShifts envC8).result = ShiftResult.inputMissing from rfl] at hc
    cases hc
  have hr := (C8_driver_exit_zero envC8).1 h
  exact ⟨h, hr.1, hr.2.2⟩

/-! ## Lemmas about `remove_duplicates` -/

lemma getD_map_of_lt {α β : Type} [Inhabited α] [Inhabited β] (f : α → β)
    (l : List α) (i : ℕ) (h : i < l.length) :
    (l.map f).getD i default = f (l.getD i default) := by
  have h2 : i < (l.map f).length := by simpa using h
  rw [List.getD_eq_getElem _ _ h2, List.getD_eq_getElem _ _ h, List.getElem_map]

lemma bad_entry_eq_true_iff {α β : Type} [DecidableEq α] [DecidableEq β]
    [Inhabited α] [Inhabited β] (ip1 : List α) (ip2 : List β) (i : ℕ) :
    bad_entry ip1 ip2 i = true ↔
      ∃ j, j < ip1.length ∧ j ≠ i ∧
        (ip1.getD i default = ip1.getD j default
          ∨ ip2.getD i default = ip2.getD j default) := by
  unfold bad_entry
  rw [List.any_eq_true]
  constructor
  · rintro ⟨j, hj, hcond⟩
    rw [List.mem_range] at hj
    simp only [Bool.and_eq_true, Bool.or_eq_true, decide_eq_true_eq] at hcond
    exact ⟨j, hj, (hcond.1).symm, hcond.2⟩
  · rintro ⟨j, hj, hne, hor⟩
    refine ⟨j, List.mem_range.mpr hj, ?_⟩
    simp only [Bool.and_eq_true, Bool.or_eq_true, decide_eq_true_eq]
    exact ⟨hne.symm, hor⟩

lemma map_getD_filter_range_sublist {α : Type} [Inhabited α] :
    ∀ (xs : List α) (p : ℕ → Bool),
      ((((List.range xs.length).filter p).map fun i => xs.getD i default).Sublist xs) := by
  intro xs
  induction xs using List.reverseRecOn with
  | nil => intro p; simp
  | append_singleton ys y ih =>
      intro p
      have hlen : (ys ++ [y]).length = ys.length + 1 := by simp
      rw [hlen, List.range_succ, List.filter_append, List.map_append]
      have hmap : ((List.range ys.length).filter p).map
            (fun i => (ys ++ [y]).getD i default)
          = ((List.range ys.length).filter p).map fun i => ys.getD i default := by
        apply List.map_congr_left
        intro i hi
        exact List.getD_append ys [y] default i
          (List.mem_range.mp (List.mem_of_mem_filter hi))
      rw [hmap]
      by_cases hp : p ys.length
      · have hf : ([ys.length].filter p) = [ys.length] := by simp [hp]
        rw [hf, List.map_cons, List.map_nil]
        have hy : (ys ++ [y]).getD ys.length default = y := by
          rw [List.getD_append_right ys [y] default ys.length (le_refl _)]
          simp
        rw [hy]
        exact (ih p).append (List.Sublist.refl [y])
      · have hf : ([ys.length].filter p) = [] := by
          simp only [List.filter_cons, List.filter_nil]
          simp [hp]
        rw [hf, List.map_nil, List.append_nil]
        exact (ih p).trans (List.sublist_append_left ys [y])

lemma keepIndices_pairwise {α β : Type} [DecidableEq α] [DecidableEq β]
    [Inhabited α] [Inhabited β] (ip1 : List α) (ip2 : List β) :
    (keepIndices ip1 ip2).Pairwise (· < ·) :=
  (List.pairwise_lt_range ip1.length).filter _

lemma keepIndices_mem {α β : Type} [DecidableEq α] [DecidableEq β]
    [Inhabited α] [Inhabited β] {ip1 : List α} {ip2 : List β} {i : ℕ}
    (h : i ∈ keepIndices ip1 ip2) :
    i < ip1.length ∧ bad_entry ip1 ip2 i = false := by
  rw [keepIndices] at h
  obtain ⟨h1, h2⟩ := List.mem_filter.mp h
  exact ⟨List.mem_range.mp h1, (Bool.not_eq_true' _).mp h2⟩

/-! ## Claim C5 -/

/-- C5: for equal-length coordinate lists, `remove_duplicates` removes index
`i` exactly when some other index shares either coordinate; the two outputs
have equal length, are order-preserving subsequences of the inputs, and no
two distinct surviving positions share either endpoint coordinate. -/
theorem C5_remove_duplicates_spec :
    ∀ (ip1 ip2 : List Vec3), ip1.length = ip2.length →
      (∀ i : ℕ, i ∈ keepIndices ip1 ip2 ↔
          (i < ip1.length ∧ ¬ ∃ j, j < ip1.length ∧ j ≠ i ∧
            (ip1.getD i default = ip1.getD j default
              ∨ ip2.getD i default = ip2.getD j default)))
    ∧ (remove_duplicates ip1 ip2).1.length = (remove_duplicates ip1 ip2).2.length
    ∧ (remove_duplicates ip1 ip2).1.Sublist ip1
    ∧ (remove_duplicates ip1 ip2).2.Sublist ip2
    ∧ (∀ a b : ℕ, a < (remove_duplicates ip1 ip2).1.length →
        b < (remove_duplicates ip1 ip2).1.length → a ≠ b →
          (remove_duplicates ip1 ip2).1.getD a default
            ≠ (remove_duplicates ip1 ip2).1.getD b default
        ∧ (remove_duplicates ip1 ip2).2.getD a default
            ≠ (remove_duplicates ip1 ip2).2.getD b default) := by
  intro ip1 ip2 h
  refine ⟨?_, ?_, ?_, ?_, ?_⟩
  · intro i
    rw [keepIndices, List.mem_filter, List.mem_range]
    constructor
    · rintro ⟨hi, hb⟩
      rw [Bool.not_eq_true' _] at hb
      refine ⟨hi, fun hex => ?_⟩
      rw [← bad_entry_eq_true_iff ip1 ip2 i] at hex
      rw [hb] at hex
      cases hex
    · rintro ⟨hi, hnex⟩
      refine ⟨hi, ?_⟩
      rw [Bool.not_eq_true' _]
      rw [Bool.eq_false_iff]
      intro hb
      exact hnex ((bad_entry_eq_true_iff ip1 ip2 i).mp hb)
  · simp [remove_duplicates]
  · exact map_getD_filter_range_sublist ip1 _
  · have hk : keepIndices ip1 ip2
        = (List.range ip2.length).filter fun i => !bad_entry ip1 ip2 i := by
      rw [keepIndices, h]
    show ((keepIndices ip1 ip2).map fun i => ip2.getD i default).Sublist ip2
    rw [hk]
    exact map_getD_filter_range_sublist ip2 _
  · intro a b ha hb hne
    have hl1 : (remove_duplicates ip1 ip2).1.length = (keepIndices ip1 ip2).length := by
      simp [remove_duplicates]
    rw [hl1] at ha hb
    have hpw := keepIndices_pairwise ip1 ip2
    have hkk : (keepIndices ip1 ip2).get ⟨a, ha⟩ ≠ (keepIndices ip1 ip2).get ⟨b, hb⟩ := by
      rcases Nat.lt_or_ge a b with hab | hab
      · exact Nat.ne_of_lt (List.pairwise_iff_get.mp hpw ⟨a, ha⟩ ⟨b, hb⟩ hab)
      · have hba : b < a := lt_of_le_of_ne hab (Ne.symm hne)
        exact (Nat.ne_of_lt (List.pairwise_iff_get.mp hpw ⟨b, hb⟩ ⟨a, ha⟩ hba)).symm
    obtain ⟨hlta, hbada⟩ := keepIndices_mem (List.get_mem (keepIndices ip1 ip2) a ha)
    obtain ⟨hltb, _⟩ := keepIndices_mem (List.get_mem (keepIndices ip1 ip2) b hb)
    have hda : (keepIndices ip1 ip2).getD a default = (keepIndices ip1 ip2).get ⟨a, ha⟩ :=
      List.getD_eq_getElem _ _ ha
    have hdb : (keepIndices ip1 ip2).getD b default = (keepIndices ip1 ip2).get ⟨b, hb⟩ :=
      List.getD_eq_getElem _ _ hb
    have hv1a : (remove_duplicates ip1 ip2).1.getD a default
        = ip1.getD ((keepIndices ip1 ip2).get ⟨a, ha⟩) default := by
      show ((keepIndices ip1 ip2).map fun i => ip1.getD i default).getD a default = _
      rw [getD_map_of_lt _ _ _ ha, hda]
    have hv1b : (remove_duplicates ip1 ip2).1.getD b default
        = ip1.getD ((keepIndices ip1 ip2).get ⟨b, hb⟩) default := by
      show ((keepIndices ip1 ip2).map fun i => ip1.getD i default).getD b default = _
      rw [getD_map_of_lt _ _ _ hb, hdb]
    have hv2a : (remove_duplicates ip1 ip2).2.getD a default
        = ip2.getD ((keepIndices ip1 ip2).get ⟨a, ha⟩) default := by
      show ((keepIndices ip1 ip2).map fun i => ip2.getD i default).getD a default = _
      rw [getD_map_of_lt _ _ _ ha, hda]
    have hv2b : (remove_duplicates ip1 ip2).2.getD b default
        = ip2.getD ((keepIndices ip1 ip2).get ⟨b, hb⟩) default := by
      show ((keepIndices ip1 ip2).map fun i => ip2.getD i default).getD b default = _
      rw [getD_map_of_lt _ _ _ hb, hdb]
    constructor
    · intro heq
      rw [hv1a, hv1b] at heq
      have hbad : bad_entry ip1 ip2 ((keepIndices ip1 ip2).get ⟨a, ha⟩) = true :=
        (bad_entry_eq_true_iff ip1 ip2 _).mpr
          ⟨(keepIndices ip1 ip2).get ⟨b, hb⟩, hltb, hkk.symm, Or.inl heq⟩
      rw [hbada] at hbad
      cases hbad
    · intro heq
      rw [hv2a, hv2b] at heq
      have hbad : bad_entry ip1 ip2 ((keepIndices ip1 ip2).get ⟨a, ha⟩) = true :=
        (bad_entry_eq_true_iff ip1 ip2 _).mpr
          ⟨(keepIndices ip1 ip2).get ⟨b, hb⟩, hltb, hkk.symm, Or.inr heq⟩
      rw [hbada] at hbad
      cases hbad

/-- Witness for C5: the theorem applied at the concrete coordinate lists
`ip1C5`/`ip2C5` (of equal length 3). -/
theorem C5_remove_duplicates_spec_witness :
    ip1C5.length = ip2C5.length
  ∧ (remove_duplicates ip1C5 ip2C5).1.length = (remove_duplicates ip1C5 ip2C5).2.length
  ∧ (remove_duplicates ip1C5 ip2C5).1.Sublist ip1C5
  ∧ (remove_duplicates ip1C5 ip2C5).2.Sublist ip2C5 := by
  have h : ip1C5.length = ip2C5.length := rfl
  have ht := C5_remove_duplicates_spec ip1C5 ip2C5 h
  exact ⟨h, ht.2.1, ht.2.2.1, ht.2.2.2.1⟩

/-! ## Lemmas about the alignment pipeline and the disparity transforms -/

lemma determine_image_alignment_events (env : AlignEnv) :
    (determine_image_alignment env).events = tierEvents env := by
  cases h : env.ransacOut (remove_duplicates (tierMatches env).1 (tierMatches env).2) with
  | none => simp [determine_image_alignment, h]
  | some T => simp [determine_image_alignment, h]

lemma idxMap_get? {α β : Type} (f : ℕ → α → β) :
    ∀ (l : List α) (i n : ℕ), (idxMap f i l).get? n = (l.get? n).map (f (i + n)) := by
  intro l
  induction l with
  | nil => intro i n; simp [idxMap]
  | cons a as ih =>
      intro i n
      cases n with
      | zero => simp [idxMap]
      | succ m =>
          show (idxMap f (i + 1) as).get? m = (as.get? m).map (f (i + (m + 1)))
          rw [ih (i + 1) m]
          have he : i + 1 + m = i + (m + 1) := by omega
          rw [he]

/-- Cell-level description of the unprojected point-cloud transformation:
the matrix transform is applied to every valid disparity vector, and the
result survives exactly when the transformed target lies inside the
secondary image's bounds. -/
lemma getCell_remove_transform (g : DGrid) (T : ℚ × ℚ → ℚ × ℚ) (cols rows : ℕ)
    (row col : ℕ) :
    getCell (remove_invalid_pixels (transform_disparities g T) cols rows) row col
      = (getCell g row col).bind fun v =>
          let t := T ((col : ℚ) + v.1, (row : ℚ) + v.2)
          if 0 ≤ t.1 ∧ t.1 < (cols : ℚ) ∧ 0 ≤ t.2 ∧ t.2 < (rows : ℚ)
          then some (t.1 - (col : ℚ), t.2 - (row : ℚ)) else none := by
  unfold getCell remove_invalid_pixels transform_disparities
  rw [idxMap_get?, idxMap_get?]
  cases hrow : g.get? row with
  | none => simp
  | some r =>
      simp only [Option.map_some', Option.some_bind]
      rw [idxMap_get?, idxMap_get?]
      cases hcol : r.get? col with
      | none => simp
      | some cell =>
          cases cell with
          | none => simp
          | some v =>
              set t := T ((col : ℚ) + v.1, (row : ℚ) + v.2) with htv
              have h1 : (col : ℚ) + (t.1 - (col : ℚ)) = t.1 := by ring
              have h2 : (row : ℚ) + (t.2 - (row : ℚ)) = t.2 := by ring
              simp only [Option.map_some', Option.some_bind, Nat.zero_add, id,
                Option.map_some', h1, h2]

/-! ## Claim C6 -/

/-- C6: the cache follows the three-tier lookup order — with a `.match`
artifact present it is read and used directly with no detection,
description, matching, or writes; on a `.match` miss with both `.vwip`
artifacts present they are read, the matcher runs, and the match file is
persisted; and only when those too are missing do detection and description
run (persisting the `.vwip` artifacts first, then matching and persisting
the match file). -/
theorem C6_alignment_cache_tiers :
    ∀ env : AlignEnv,
      (env.matchExists = true →
          (determine_image_alignment env).events = [AlignEvent.readMatchFile]
        ∧ tierMatches env = env.matchContent)
    ∧ (env.matchExists = false → env.vwip1Exists = true → env.vwip2Exists = true →
          (determine_image_alignment env).events
            = [AlignEvent.readVwipFiles, AlignEvent.runMatcher, AlignEvent.writeMatchFile]
        ∧ tierMatches env = env.matcherOut env.vwipContent)
    ∧ (env.matchExists = false → (env.vwip1Exists && env.vwip2Exists) = false →
          (determine_image_alignment env).events
            = [AlignEvent.detectPoints, AlignEvent.generateDescriptors,
               AlignEvent.writeVwipFiles, AlignEvent.readVwipFiles,
               AlignEvent.runMatcher, AlignEvent.writeMatchFile]
        ∧ tierMatches env = env.matcherOut env.detected) := by
  intro env
  refine ⟨?_, ?_, ?_⟩
  · intro h1
    rw [determine_image_alignment_events]
    constructor
    · rw [tierEvents, if_pos h1]
    · rw [tierMatches, if_pos h1]
  · intro h1 h2 h3
    rw [determine_image_alignment_events]
    have hb : (env.vwip1Exists && env.vwip2Exists) = true := by rw [h2, h3]; rfl
    constructor
    · rw [tierEvents, if_neg (by rw [h1]; simp), if_pos hb]
    · rw [tierMatches, if_neg (by rw [h1]; simp), if_pos hb]
  · intro h1 h2
    rw [determine_image_alignment_events]
    constructor
    · rw [tierEvents, if_neg (by rw [h1]; simp), if_neg (by rw [h2]; simp)]
    · rw [tierMatches, if_neg (by rw [h1]; simp), if_neg (by rw [h2]; simp)]

/-- Witness for C6: the theorem applied at the three concrete tier
environments. -/
theorem C6_alignment_cache_tiers_witness :
    alignEnvTier1.matchExists = true
  ∧ (determine_image_alignment alignEnvTier1).events = [AlignEvent.readMatchFile]
  ∧ alignEnvTier2.matchExists = false
  ∧ (determine_image_alignment alignEnvTier2).events
      = [AlignEvent.readVwipFiles, AlignEvent.runMatcher, AlignEvent.writeMatchFile]
  ∧ (alignEnvTier3.vwip1Exists && alignEnvTier3.vwip2Exists) = false
  ∧ (determine_image_alignment alignEnvTier3).events
      = [AlignEvent.detectPoints, AlignEvent.generateDescriptors,
         AlignEvent.writeVwipFiles, AlignEvent.readVwipFiles,
         AlignEvent.runMatcher, AlignEvent.writeMatchFile] := by
  refine ⟨rfl, ?_, rfl, ?_, rfl, ?_⟩
  · exact ((C6_alignment_cache_tiers alignEnvTier1).1 rfl).1
  · exact ((C6_alignment_cache_tiers alignEnvTier2).2.1 rfl rfl rfl).1
  · exact ((C6_alignment_cache_tiers alignEnvTier3).2.2 rfl rfl).1

/-! ## Claim C2 -/

/-- C2: failure handling is asymmetric — a RANSAC failure in
`determine_image_alignment` is recoverable (warning printed, 3×3 identity
returned, session continues and still writes the alignment file), whereas
in the unprojected point-cloud stage a missing/unreadable alignment matrix
file is fatal (`exit(1)`); on success the matrix is applied to every
disparity vector and vectors whose transformed target leaves the secondary
image's bounds are invalidated. -/
theorem C2_failure_asymmetry :
    (∀ env : AlignEnv,
        env.ransacOut (remove_duplicates (tierMatches env).1 (tierMatches env).2) = none →
          (determine_image_alignment env).T = Mat3.identity
        ∧ (determine_image_alignment env).warned = true)
  ∧ (∀ env : PointcloudEnv, env.alignFileContent = none →
        pre_pointcloud_hook env = PointcloudResult.fatalExit 1)
  ∧ (∀ (env : PointcloudEnv) (m : Mat3), env.alignFileContent = some m →
        pre_pointcloud_hook env = PointcloudResult.written
          (remove_invalid_pixels
            (transform_disparities env.disparity (homographyApply m))
            env.rightCols env.rightRows)
      ∧ ∀ row col : ℕ,
          getCell (remove_invalid_pixels
              (transform_disparities env.disparity (homographyApply m))
              env.rightCols env.rightRows) row col
            = (getCell env.disparity row col).bind fun v =>
                let t := homographyApply m ((col : ℚ) + v.1, (row : ℚ) + v.2)
                if 0 ≤ t.1 ∧ t.1 < (env.rightCols : ℚ)
                    ∧ 0 ≤ t.2 ∧ t.2 < (env.rightRows : ℚ)
                then some (t.1 - (col : ℚ), t.2 - (row : ℚ)) else none)
  ∧ (∀ penv : PreprocEnv, penv.keypoint_alignment = true →
        penv.alignEnv.ransacOut
          (remove_duplicates (tierMatches penv.alignEnv).1
            (tierMatches penv.alignEnv).2) = none →
          (pre_preprocessing_hook penv).align_matrix = Mat3.identity
        ∧ (pre_preprocessing_hook penv).wroteAlignFile = true) := by
  have hransac : ∀ env : AlignEnv,
      env.ransacOut (remove_duplicates (tierMatches env).1 (tierMatches env).2) = none →
        (determine_image_alignment env).T = Mat3.identity
      ∧ (determine_image_alignment env).warned = true := by
    intro env h
    constructor <;> simp [determine_image_alignment, h]
  refine ⟨hransac, ?_, ?_, ?_⟩
  · intro env h
    unfold pre_pointcloud_hook
    rw [if_neg (by simp), h]
  · intro env m h
    constructor
    · unfold pre_pointcloud_hook
      rw [if_neg (by simp), h]
    · intro row col
      exact getCell_remove_transform env.disparity (homographyApply m)
        env.rightCols env.rightRows row col
  · intro penv hk h
    unfold pre_preprocessing_hook
    rw [if_neg (by simp), if_pos hk]
    exact ⟨(hransac penv.alignEnv h).1, rfl⟩

/-- Witness for C2: the theorem applied at the concrete environments
`alignEnvC2` (RANSAC failure), `pcEnvMissing` (alignment file absent),
`pcEnvPresent` (alignment file present) and `preprocEnvC2`. -/
theorem C2_failure_asymmetry_witness :
    alignEnvC2.ransacOut
      (remove_duplicates (tierMatches alignEnvC2).1 (tierMatches alignEnvC2).2) = none
  ∧ (determine_image_alignment alignEnvC2).T = Mat3.identity
  ∧ (determine_image_alignment alignEnvC2).warned = true
  ∧ pcEnvMissing.alignFileContent = none
  ∧ pre_pointcloud_hook pcEnvMissing = PointcloudResult.fatalExit 1
  ∧ pcEnvPresent.alignFileContent = some Mat3.identity
  ∧ pre_pointcloud_hook pcEnvPresent = PointcloudResult.written
      (remove_invalid_pixels
        (transform_disparities pcEnvPresent.disparity (homographyApply Mat3.identity))
        pcEnvPresent.rightCols pcEnvPresent.rightRows)
  ∧ (pre_preprocessing_hook preprocEnvC2).align_matrix = Mat3.identity := by
  have h1 : alignEnvC2.ransacOut
      (remove_duplicates (tierMatches alignEnvC2).1 (tierMatches alignEnvC2).2) = none := rfl
  have h2 : pcEnvMissing.alignFileContent = none := rfl
  have h3 : pcEnvPresent.alignFileContent = some Mat3.identity := rfl
  have h4 : preprocEnvC2.keypoint_alignment = true := rfl
  refine ⟨h1, (C2_failure_asymmetry.1 alignEnvC2 h1).1,
    (C2_failure_asymmetry.1 alignEnvC2 h1).2, h2,
    C2_failure_asymmetry.2.1 pcEnvMissing h2, h3,
    (C2_failure_asymmetry.2.2.1 pcEnvPresent Mat3.identity h3).1,
    (C2_failure_asymmetry.2.2.2 preprocEnvC2 h4 h1).1⟩

/-! ## Claim C7 (corrected) -/

/-- Counterexample to C7 as stated: `envC7`'s two image files both carry a
non-identity georeference, yet the preprocessing stage takes the
feature-based (unprojected) path and reads the `.match` cache artifact —
because the source never reads the files' georeferences (the
`read_georeference` calls are commented out). -/
theorem C7_counterexample :
    envC7.fileGeoref1 ≠ Mat3.identity
  ∧ envC7.fileGeoref2 ≠ Mat3.identity
  ∧ (pre_preprocessing_hook envC7).path = PreprocPath.unprojected
  ∧ (pre_preprocessing_hook envC7).alignEvents = [AlignEvent.readMatchFile] := by
  refine ⟨by decide, by decide, rfl, rfl⟩

/-- C7 (amended): because the georeference read is disabled, the branch
condition always tests default-constructed (identity) georeferences — for
every input pair, whatever georeferences the files carry, preprocessing
takes the feature-based path, always writes the alignment-matrix file, and
invokes the cached alignment pipeline exactly when `keypoint_alignment` is
enabled; the map-projected branch is dead code. -/
theorem C7_preproc_always_feature_path :
    ∀ env : PreprocEnv,
      (pre_preprocessing_hook env).path = PreprocPath.unprojected
    ∧ (pre_preprocessing_hook env).wroteAlignFile = true
    ∧ (env.keypoint_alignment = false → (pre_preprocessing_hook env).alignEvents = [])
    ∧ (env.keypoint_alignment = true →
        (pre_preprocessing_hook env).alignEvents
          = (determine_image_alignment env.alignEnv).events) := by
  intro env
  unfold pre_preprocessing_hook
  rw [if_neg (by simp)]
  by_cases hk : env.keypoint_alignment
  · simp [hk]
  · simp [hk]

/-- Witness for the amended C7: the theorem applied at `envC7`, whose
`keypoint_alignment` flag is set. -/
theorem C7_preproc_always_feature_path_witness :
    envC7.keypoint_alignment = true
  ∧ (pre_preprocessing_hook envC7).path = PreprocPath.unprojected
  ∧ (pre_preprocessing_hook envC7).alignEvents
      = (determine_image_alignment envC7.alignEnv).events := by
  have h := C7_preproc_always_feature_path envC7
  exact ⟨rfl, h.1, h.2.2.2 rfl⟩

end StereoPipeline
